import Mathlib

/-!
Shallow embedding of the filler bot (`src/bots/filler.ts`) of
tomland123/keeper-bots-v2, and proofs about it.

The bot selects fillable order-book nodes, filters them (vAMM nodes,
already-filled nodes, throttled nodes), greedily packs fill instructions
into one transaction under a byte budget, submits it, and reconciles the
resulting transaction logs back into throttle / order-book-removal state.

External collaborators (order book, oracle, RPC transport) appear as
abstract parameters; every definition below is translated from the body
of `filler.ts`, with machine integers as `Nat` (sizes and timestamps are
small positive quantities in the source) and JavaScript `Map`s as
association lists with distinct keys.
-/

namespace KeeperFiller

/-- `const FILL_ORDER_BACKOFF = 0; //5000;` (filler.ts line 35). -/
def FILL_ORDER_BACKOFF : Nat := 0

/-- JavaScript `String.prototype.includes` on explicit character lists:
`pat` occurs contiguously inside the haystack. -/
def containsSub (pat : List Char) : List Char → Bool
  | [] => pat.isEmpty
  | c :: t => pat.isPrefixOf (c :: t) || containsSub pat t

/-- `s.includes(pat)` as used by `processBulkFillTxLogs`. -/
def strIncludes (s pat : String) : Bool :=
  containsSub pat.data s.data

/-- `isLogFillOrder` (filler.ts lines 382-384): exact equality with the
fill-order marker line. -/
def isLogFillOrder (log : String) : Bool :=
  log == "Program log: Instruction: FillOrder"

/-! ### The throttle registry: `throttledNodes : Map<string, number>` -/

/-- The throttle registry: candidate signature to timestamp of last fill
attempt, as an association list (JS `Map` with insertion order). -/
abbrev ThrottleMap : Type := List (String × Nat)

/-- `Map.get` / `Map.has` combined: the timestamp stored for `sig`. -/
def lookupTM : ThrottleMap → String → Option Nat
  | [], _ => none
  | (k, v) :: t, s => if k = s then some v else lookupTM t s

/-- `Map.set`: overwrite the entry in place when the key exists,
append otherwise. -/
def setTM : ThrottleMap → String → Nat → ThrottleMap
  | [], s, v => [(s, v)]
  | (k, w) :: t, s, v => if k = s then (s, v) :: t else (k, w) :: setTM t s v

/-- `Map.delete`. -/
def eraseTM : ThrottleMap → String → ThrottleMap
  | [], _ => []
  | (k, w) :: t, s => if k = s then t else (k, w) :: eraseTM t s

/-- `this.throttledNodes.set(sig, Date.now())` — the registry write done
by `tryFillNode`'s catch block and `processBulkFillTxLogs`. -/
def recordAttempt (m : ThrottleMap) (sig : String) (now : Nat) : ThrottleMap :=
  setTM m sig now

/-- The throttle lookup of `filterFillableNodes` (filler.ts lines 178-187),
with the backoff window as a parameter (the source inlines the constant
`FILL_ORDER_BACKOFF`): returns whether the node is throttled together with
the updated registry (expired entries are evicted). -/
def isThrottledCheck (m : ThrottleMap) (sig : String) (now backoff : Nat) :
    Bool × ThrottleMap :=
  match lookupTM m sig with
  | some lastFillAttempt =>
      if lastFillAttempt + backoff > now then (true, m)
      else (false, eraseTM m sig)
  | none => (false, m)

/-! ### Nodes and signatures -/

/-- The part of a `NodeToFill.node` (DLOB node) the filler reads: vAMM
flag, `haveFilled`, the optional user account reference and the order id. -/
structure DlobNode where
  isVammNode : Bool
  haveFilled : Bool
  userAccount : Option String
  orderId : Nat
deriving DecidableEq, Repr

/-- A `NodeToFill`: the taker node plus an optional maker counter-node. -/
structure NodeToFill where
  node : DlobNode
  makerNode : Option DlobNode
deriving DecidableEq, Repr

/-- `getNodeToFillSignature` (filler.ts lines 162-167): `"~"` when the
node has no user account, otherwise `"<account>-<orderId>"`. -/
def getNodeToFillSignature (n : NodeToFill) : String :=
  match n.node.userAccount with
  | none => "~"
  | some ua => ua ++ "-" ++ toString n.node.orderId

/-- Why `filterFillableNodes` rejected a node, or that it accepted it. -/
inductive FilterResult where
  | vammNode
  | alreadyFilled
  | throttled
  | notFillableByVamm
  | accepted
deriving DecidableEq, Repr

/-- `filterFillableNodes` (filler.ts lines 169-207). `vammFillable`
abstracts the external `isFillableByVAMM(...)` collaborator call. Returns
the verdict and the possibly-updated throttle registry (an expired entry
for this node's signature is deleted). -/
def filterFillableNodes (vammFillable : Bool) (m : ThrottleMap) (now : Nat)
    (n : NodeToFill) : FilterResult × ThrottleMap :=
  if n.node.isVammNode then (.vammNode, m)
  else if n.node.haveFilled then (.alreadyFilled, m)
  else
    match lookupTM m (getNodeToFillSignature n) with
    | some lastFillAttempt =>
        if lastFillAttempt + FILL_ORDER_BACKOFF > now then (.throttled, m)
        else
          let m' := eraseTM m (getNodeToFillSignature n)
          if n.makerNode.isNone && !vammFillable then (.notFillableByVamm, m')
          else (.accepted, m')
    | none =>
        if n.makerNode.isNone && !vammFillable then (.notFillableByVamm, m)
        else (.accepted, m)

/-! ### Size estimation -/

/-- `calcCompactU16EncodedSize(array, elemSize)` (filler.ts lines 353-361),
on the array's length: JavaScript `array.length * elemSize || 1` yields 1
when the product is 0. -/
def calcCompactU16EncodedSize (len elemSize : Nat) : Nat :=
  if len > 0x3fff then 3 + len * elemSize
  else if len > 0x7f then 2 + len * elemSize
  else 1 + (if len * elemSize = 0 then 1 else len * elemSize)

/-- What the spec sentence predicts for the estimator: a pure prefix cost
(1 byte up to 127 elements, 2 up to 16383, 3 beyond) plus the payload. -/
def specPrefixCost (len : Nat) : Nat :=
  if len ≤ 127 then 1 else if len ≤ 16383 then 2 else 3

/-- A transaction instruction as the packer measures it: the pubkeys of
`ix.keys`, `ix.programId`, and `ix.data.byteLength`. -/
structure Ix where
  keys : List String
  programId : String
  dataLen : Nat
deriving DecidableEq, Repr

/-- `calcIxEncodedSize` (filler.ts lines 370-376). -/
def calcIxEncodedSize (ix : Ix) : Nat :=
  1 + calcCompactU16EncodedSize ix.keys.length 1 +
    calcCompactU16EncodedSize ix.dataLen 1

/-! ### The batch packer: `tryBulkFillNodes` (filler.ts lines 464-615) -/

/-- `const maxTxSize = 1000;` (filler.ts line 469). -/
def maxTxSize : Nat := 1000

/-- `Set.add`: insert a key only when it is not present yet. -/
def insertUnique (l : List String) (k : String) : List String :=
  if l.contains k then l else l ++ [k]

/-- `forEach(... uniqueAccounts.add ...)` over a list of keys. -/
def insertAll (l : List String) (ks : List String) : List String :=
  ks.foldl insertUnique l

/-- `ixKeys.concat(ix.programId).filter((key) => !uniqueAccounts.has(key))`
(filler.ts lines 529-532); duplicates inside the instruction's own key
list are kept, exactly as in the source. -/
def newAccountsOf (accounts : List String) (ix : Ix) : List String :=
  (ix.keys ++ [ix.programId]).filter (fun k => !(accounts.contains k))

/-- `additionalAccountsCost` (filler.ts lines 534-537). -/
def marginalAccountsCost (accounts : List String) (ix : Ix) : Nat :=
  let newAccounts := newAccountsOf accounts ix
  if newAccounts.length > 0 then
    calcCompactU16EncodedSize newAccounts.length 32 - 1
  else 0

/-- The packer's per-candidate marginal size:
`newIxCost + additionalAccountsCost`. -/
def stepCost (accounts : List String) (ix : Ix) : Nat :=
  calcIxEncodedSize ix + marginalAccountsCost accounts ix

/-- A fill candidate as the packer consumes it: the node plus the fill
instruction resolved for it by `getFillOrderIx` (external collaborator). -/
structure PackCandidate where
  node : NodeToFill
  ix : Ix
deriving DecidableEq, Repr

/-- The packer's outcome: `nodesSent`, the final `uniqueAccounts` set, the
final `runningTxSize`, and the trace of `runningTxSize` values observed
right after each accepted candidate. -/
structure PackResult where
  sent : List PackCandidate
  accounts : List String
  size : Nat
  sizeTrace : List Nat
deriving DecidableEq, Repr

/-- The packing loop of `tryBulkFillNodes` (filler.ts lines 515-555):
greedy, single pass; `break` on the first candidate whose marginal cost
would reach the budget. -/
def tryBulkPackLoop : List PackCandidate → List String → Nat → PackResult
  | [], accounts, size => ⟨[], accounts, size, []⟩
  | c :: rest, accounts, size =>
      if size + stepCost accounts c.ix ≥ maxTxSize then ⟨[], accounts, size, []⟩
      else
        let size' := size + stepCost accounts c.ix
        let r := tryBulkPackLoop rest (insertAll accounts (newAccountsOf accounts c.ix)) size'
        ⟨c :: r.sent, r.accounts, r.size, size' :: r.sizeTrace⟩

/-- The initial `uniqueAccounts` set (filler.ts lines 484-495): the fee
payer first, then the compute-budget instruction's keys and program id. -/
def bulkStartAccounts (feePayer : String) (computeBudgetIx : Ix) : List String :=
  insertUnique (insertAll (insertUnique [] feePayer) computeBudgetIx.keys)
    computeBudgetIx.programId

/-- The initial `runningTxSize` (filler.ts lines 498-510): signatures,
message header, account table, block hash, and the compute-budget
instruction. -/
def bulkStartSize (feePayer : String) (computeBudgetIx : Ix) : Nat :=
  calcCompactU16EncodedSize 1 64 + 3 +
    calcCompactU16EncodedSize (bulkStartAccounts feePayer computeBudgetIx).length 32 +
    32 + calcIxEncodedSize computeBudgetIx

/-- The whole packing phase of `tryBulkFillNodes`: envelope initialisation
followed by the greedy loop. The fee payer and the compute-budget
instruction come from external collaborators and are parameters. -/
def tryBulkPack (feePayer : String) (computeBudgetIx : Ix)
    (nodesToFill : List PackCandidate) : PackResult :=
  tryBulkPackLoop nodesToFill (bulkStartAccounts feePayer computeBudgetIx)
    (bulkStartSize feePayer computeBudgetIx)

/-- Whether `tryBulkFillNodes` reaches `txSender.send` (filler.ts lines
558-577): it returns early when no candidate was packed, and never
consults `dryRun` (the parameter is accepted here because the method could
read the ambient flag, and mirrors that it does not). -/
def tryBulkFillSends (dryRun : Bool) (feePayer : String) (computeBudgetIx : Ix)
    (nodesToFill : List PackCandidate) : Bool :=
  !(tryBulkPack feePayer computeBudgetIx nodesToFill).sent.isEmpty

/-- Whether `tryFillNode` reaches `clearingHouse.fillOrder` (filler.ts
lines 244-279): a null node returns early, and a dry run returns right
after resolving fill info, before any submission. -/
def tryFillNodeSubmits (nodePresent dryRun : Bool) : Bool :=
  if !nodePresent then false
  else if dryRun then false
  else true

/-! ### Bot state touched by reconciliation and error handling -/

/-- The mutable state the reconciliation / error paths write: the throttle
registry and the sequence of `dlob.remove(order, userAccount, ...)` calls
issued to the order-book collaborator (recorded as (orderId, account)). -/
structure BotState where
  throttledNodes : ThrottleMap
  removedOrders : List (Nat × Option String)
deriving DecidableEq, Repr

/-- The catch block of `tryFillNode` (filler.ts lines 289-320): clear the
node's `haveFilled` flag, record a throttle attempt, and when the error
message is `OrderDoesNotExist` remove the order from the DLOB. -/
def tryFillNodeOnError (n : NodeToFill) (errorMessage : String) (now : Nat)
    (st : BotState) : NodeToFill × BotState :=
  let n' : NodeToFill := { n with node := { n.node with haveFilled := false } }
  let st' : BotState :=
    { st with throttledNodes :=
        recordAttempt st.throttledNodes (getNodeToFillSignature n) now }
  if errorMessage = "OrderDoesNotExist" then
    (n', { st' with removedOrders :=
        st'.removedOrders ++ [(n.node.orderId, n.node.userAccount)] })
  else (n', st')

/-! ### Log reconciliation: `processBulkFillTxLogs` (filler.ts lines 386-462) -/

/-- The fold state of the log walk: bot state, the `nextIsFillRecord`
flag, the instruction index `ixIdx` (starts at -1, skipping the
compute-budget instruction), and the running `successCount`. -/
structure ReconState where
  bot : BotState
  nextIsFillRecord : Bool
  ixIdx : Int
  successCount : Nat
deriving DecidableEq, Repr

/-- `nodesFilled[ixIdx]` under a JavaScript index that may be out of
range. -/
def nodeAt (nodes : List NodeToFill) (i : Int) : Option NodeToFill :=
  if h : 0 ≤ i ∧ i.toNat < nodes.length then some (nodes.get ⟨i.toNat, h.2⟩)
  else none

/-- One iteration of the log loop (filler.ts lines 409-455). A `none` log
line models the `log === null` case, which only logs and `continue`s. -/
def processBulkLog (nodesFilled : List NodeToFill) (now : Nat)
    (st : ReconState) (log : Option String) : ReconState :=
  match log with
  | none => st
  | some log =>
    if st.nextIsFillRecord then
      if strIncludes log "Order does not exist" then
        match nodeAt nodesFilled st.ixIdx with
        | some filledNode =>
            let removed := st.bot.removedOrders ++
              [(filledNode.node.orderId, filledNode.node.userAccount)]
            let bot' : BotState := { st.bot with removedOrders := removed }
            { st with bot := bot', nextIsFillRecord := false }
        | none => { st with nextIsFillRecord := false }
      else if strIncludes log "Amm cant fulfill order" then
        match nodeAt nodesFilled st.ixIdx with
        | some filledNode =>
            let thr := recordAttempt st.bot.throttledNodes
              (getNodeToFillSignature filledNode) now
            let bot' : BotState := { st.bot with throttledNodes := thr }
            { st with bot := bot', nextIsFillRecord := false }
        | none => { st with nextIsFillRecord := false }
      else if log.length > 50 then
        { st with successCount := st.successCount + 1, nextIsFillRecord := false }
      else { st with nextIsFillRecord := false }
    else if isLogFillOrder log then
      { st with nextIsFillRecord := true, ixIdx := st.ixIdx + 1 }
    else st

/-- `processBulkFillTxLogs` on an already-fetched transaction's log
messages: walk the lines in order, return the updated bot state and the
`successCount` reported to metrics. -/
def processBulkFillTxLogs (nodesFilled : List NodeToFill) (now : Nat)
    (logMessages : List (Option String)) (bot : BotState) : BotState × Nat :=
  let fin := logMessages.foldl (processBulkLog nodesFilled now)
    ⟨bot, false, -1, 0⟩
  (fin.bot, fin.successCount)

/-- The submission phase of `tryBulkFillNodes` after the transaction was
packed (filler.ts lines 571-614): on transport success the fetched log
messages are reconciled; on transport failure (`catch (e)`) the error's
diagnostic lines are only logged and the state is returned unchanged. -/
def tryBulkFillAfterSend (nodesSent : List NodeToFill) (now : Nat)
    (bot : BotState) (sendResult : Except (List String) (List (Option String))) :
    BotState × Nat :=
  match sendResult with
  | .ok logMessages => processBulkFillTxLogs nodesSent now logMessages bot
  | .error _ => (bot, 0)

/-! ### The cycle boundary: `tryFill`'s catch (filler.ts lines 655-662) -/

/-- The errors distinguished by `tryFill`'s catch: the cycle-gate mutex
busy signal `E_ALREADY_LOCKED`, the snapshot-gate timeout
`dlobMutexError`, and any other error (abstracted by an identifier). -/
inductive TryFillError where
  | alreadyLocked
  | dlobTimeout
  | other (e : Nat)
deriving DecidableEq, Repr

/-- What the catch block does with an error. -/
inductive CatchOutcome where
  | busyCounted
  | loggedTimeout
  | rethrown (e : Nat)
deriving DecidableEq, Repr

/-- `tryFill`'s catch block: `E_ALREADY_LOCKED` increments the mutex-busy
counter (no log, no rethrow); `dlobMutexError` logs an error; anything
else is rethrown to the caller. -/
def tryFillCatch : TryFillError → CatchOutcome
  | .alreadyLocked => .busyCounted
  | .dlobTimeout => .loggedTimeout
  | .other e => .rethrown e

/-! ## Theorems -/

/-- C2 counterexample: an empty array is charged 2 bytes by
`calcCompactU16EncodedSize` (`1 + (0 || 1)` in the source), not the 1 byte
(prefix plus empty payload) the claim states. -/
theorem calcCompactU16_empty_array_costs_two :
    calcCompactU16EncodedSize 0 1 = 2 ∧
    calcCompactU16EncodedSize 0 1 ≠ specPrefixCost 0 + 0 * 1 := by
  decide

/-- C2 (amended): `calcCompactU16EncodedSize n e` is the variable-width
prefix cost (1 byte for n ≤ 127, 2 for 128..16383, 3 beyond) plus the
payload `n * e`, except that in the 1-byte-prefix branch a zero payload is
floored to 1 byte; in particular an empty array costs 2 bytes, not 1. -/
theorem calcCompactU16_prefix_plus_floored_payload (n e : Nat) :
    calcCompactU16EncodedSize n e =
      specPrefixCost n + (if n ≤ 127 ∧ n * e = 0 then 1 else n * e) := by
  simp only [calcCompactU16EncodedSize, specPrefixCost]
  generalize n * e = m
  split_ifs <;> omega

/-- C7 counterexample: after a transport-level send failure the catch
block of `tryBulkFillNodes` only logs; the candidate in the batch is not
marked as attempted in the throttle registry (the claim requires an entry
for its signature). -/
theorem bulkSendFailure_records_no_attempt :
    lookupTM
      (tryBulkFillAfterSend [⟨⟨false, false, some "A", 1⟩, none⟩] 100
        ⟨[], []⟩ (.error ["boom"])).fst.throttledNodes
      (getNodeToFillSignature ⟨⟨false, false, some "A", 1⟩, none⟩) = none ∧
    (tryBulkFillAfterSend [⟨⟨false, false, some "A", 1⟩, none⟩] 100
      ⟨[], []⟩ (.error ["boom"])).fst.removedOrders = [] := by
  decide

/-- C7 (amended): if the batched submission fails at the transport level,
the handler only logs the diagnostic lines: the throttle registry and the
removal stream are left unchanged (no candidate is marked attempted, no
snapshot removal is scheduled) and no synchronous retry is performed — the
call returns with the state it was given. -/
theorem bulkSendFailure_state_unchanged (nodesSent : List NodeToFill)
    (now : Nat) (bot : BotState) (errLogs : List String) :
    tryBulkFillAfterSend nodesSent now bot (.error errLogs) = (bot, 0) :=
  rfl

/-- C8: the cycle entry point's catch handles the gate-busy signal by only
incrementing a busy counter, handles the snapshot-gate timeout by logging
an error, and re-raises exactly the errors matching neither condition. -/
theorem tryFillCatch_policy :
    tryFillCatch .alreadyLocked = .busyCounted ∧
    tryFillCatch .dlobTimeout = .loggedTimeout ∧
    (∀ e, tryFillCatch (.other e) = .rethrown e) ∧
    (∀ err e, tryFillCatch err = .rethrown e → err = .other e) := by
  refine ⟨rfl, rfl, fun e => rfl, ?_⟩
  intro err e h
  cases err <;> simp [tryFillCatch] at h ⊢
  exact h

/-- C9 counterexample: the claim says the `filled` flag is read-only in
the filler, but `tryFillNode`'s catch block writes it: a node entering the
failure handler with the flag set leaves with it cleared. -/
theorem tryFillNodeOnError_writes_haveFilled :
    (⟨⟨false, true, some "A", 1⟩, none⟩ : NodeToFill).node.haveFilled = true ∧
    (tryFillNodeOnError ⟨⟨false, true, some "A", 1⟩, none⟩ "SomeError" 5
      ⟨[], []⟩).fst.node.haveFilled = false := by
  decide

/-- C9 (amended): the single-candidate fallback's failure handler is a
writer of the `filled` flag: it unconditionally clears it to false, while
leaving every other field of the candidate unchanged. -/
theorem tryFillNodeOnError_clears_haveFilled (n : NodeToFill) (msg : String)
    (now : Nat) (st : BotState) :
    (tryFillNodeOnError n msg now st).fst.node.haveFilled = false ∧
    (tryFillNodeOnError n msg now st).fst.node.userAccount = n.node.userAccount ∧
    (tryFillNodeOnError n msg now st).fst.node.orderId = n.node.orderId ∧
    (tryFillNodeOnError n msg now st).fst.node.isVammNode = n.node.isVammNode ∧
    (tryFillNodeOnError n msg now st).fst.makerNode = n.makerNode := by
  unfold tryFillNodeOnError
  split_ifs <;> simp

/-- C10: the dry-run flag suppresses submission only on the
single-candidate fallback path — `tryFillNode` returns before submitting
when it is set — while the batch path packs and sends whenever at least
one candidate was packed, never consulting the flag. -/
theorem dryRun_only_gates_fallback :
    (∀ nodePresent, tryFillNodeSubmits nodePresent true = false) ∧
    tryFillNodeSubmits true false = true ∧
    (∀ d feePayer cb nodes,
      tryBulkFillSends d feePayer cb nodes = tryBulkFillSends false feePayer cb nodes) ∧
    (∀ feePayer cb nodes,
      tryBulkFillSends true feePayer cb nodes =
        !(tryBulkPack feePayer cb nodes).sent.isEmpty) := by
  refine ⟨fun np => ?_, rfl, fun _ _ _ _ => rfl, fun _ _ _ => rfl⟩
  cases np <;> rfl

/-! ### Throttle registry lemmas -/

theorem lookupTM_eq_none_of_not_mem :
    ∀ (m : ThrottleMap) (s : String), s ∉ m.map Prod.fst → lookupTM m s = none
  | [], _, _ => rfl
  | (k, v) :: t, s, h => by
      simp only [List.map_cons, List.mem_cons, not_or] at h
      rw [lookupTM, if_neg (fun hk : k = s => h.1 hk.symm)]
      exact lookupTM_eq_none_of_not_mem t s h.2

theorem lookupTM_setTM_self :
    ∀ (m : ThrottleMap) (s : String) (v : Nat),
      lookupTM (setTM m s v) s = some v
  | [], s, v => by simp [setTM, lookupTM]
  | (k, w) :: t, s, v => by
      by_cases hk : k = s
      · rw [setTM, if_pos hk, lookupTM, if_pos rfl]
      · rw [setTM, if_neg hk, lookupTM, if_neg hk]
        exact lookupTM_setTM_self t s v

theorem mem_map_fst_setTM :
    ∀ (m : ThrottleMap) (s : String) (v : Nat) (x : String),
      x ∈ (setTM m s v).map Prod.fst ↔ x ∈ m.map Prod.fst ∨ x = s
  | [], s, v, x => by simp [setTM]
  | (k, w) :: t, s, v, x => by
      by_cases hk : k = s
      · subst hk
        rw [setTM, if_pos rfl]
        simp only [List.map_cons, List.mem_cons]
        tauto
      · rw [setTM, if_neg hk]
        simp only [List.map_cons, List.mem_cons, mem_map_fst_setTM t s v x]
        tauto

theorem nodup_keys_setTM :
    ∀ (m : ThrottleMap) (s : String) (v : Nat),
      (m.map Prod.fst).Nodup → ((setTM m s v).map Prod.fst).Nodup
  | [], s, v, _ => by simp [setTM]
  | (k, w) :: t, s, v, h => by
      simp only [List.map_cons, List.nodup_cons] at h
      by_cases hk : k = s
      · subst hk
        rw [setTM, if_pos rfl]
        simp only [List.map_cons, List.nodup_cons]
        exact h
      · rw [setTM, if_neg hk]
        simp only [List.map_cons, List.nodup_cons]
        refine ⟨?_, nodup_keys_setTM t s v h.2⟩
        rw [mem_map_fst_setTM]
        rintro (hm | hm)
        · exact h.1 hm
        · exact hk hm

theorem lookupTM_eraseTM_self :
    ∀ (m : ThrottleMap) (s : String),
      (m.map Prod.fst).Nodup → lookupTM (eraseTM m s) s = none
  | [], _, _ => rfl
  | (k, w) :: t, s, h => by
      simp only [List.map_cons, List.nodup_cons] at h
      by_cases hk : k = s
      · rw [eraseTM, if_pos hk]
        exact lookupTM_eq_none_of_not_mem t s (hk ▸ h.1)
      · rw [eraseTM, if_neg hk, lookupTM, if_neg hk]
        exact lookupTM_eraseTM_self t s h.2

/-- C5: after `recordAttempt(s)` at time `t`, the throttle lookup (with
backoff window `W`) reports the signature throttled at every time
`t' ∈ [t, t + W)` and not throttled at every `t' ≥ t + W`, in the latter
case evicting the entry from the registry. -/
theorem recordAttempt_throttle_window (m : ThrottleMap) (s : String)
    (t W t' : Nat) (hnodup : (m.map Prod.fst).Nodup) :
    (t ≤ t' → t' < t + W →
      (isThrottledCheck (recordAttempt m s t) s t' W).fst = true) ∧
    (t + W ≤ t' →
      (isThrottledCheck (recordAttempt m s t) s t' W).fst = false ∧
      lookupTM (isThrottledCheck (recordAttempt m s t) s t' W).snd s = none) := by
  have hlook : lookupTM (recordAttempt m s t) s = some t :=
    lookupTM_setTM_self m s t
  constructor
  · intro _ hlt
    simp only [isThrottledCheck, hlook]
    rw [if_pos (by omega)]
  · intro hge
    simp only [isThrottledCheck, hlook]
    rw [if_neg (by omega)]
    refine ⟨rfl, ?_⟩
    exact lookupTM_eraseTM_self _ s (nodup_keys_setTM m s t hnodup)

/-- C5 witness: a concrete run of the throttle window property — attempt
recorded at time 0 with window 5, looked up at time 7: not throttled and
the entry is gone. -/
theorem recordAttempt_throttle_window_witness :
    (isThrottledCheck (recordAttempt [] "a" 0) "a" 7 5).fst = false ∧
    lookupTM (isThrottledCheck (recordAttempt [] "a" 0) "a" 7 5).snd "a" = none :=
  (recordAttempt_throttle_window [] "a" 0 5 7 (by simp)).2 (by omega)

/-- C6: a candidate without an account reference gets the sentinel
signature `"~"`, and the throttle stage of `filterFillableNodes` never
rejects it: with the source's zero backoff window, any registry entry for
the sentinel recorded at or before the current time is expired, so the
filter never returns `throttled` for such a node. -/
theorem sentinel_never_throttled (vammFillable : Bool) (m : ThrottleMap)
    (now : Nat) (n : NodeToFill) (hua : n.node.userAccount = none)
    (hts : ∀ u, lookupTM m "~" = some u → u ≤ now) :
    getNodeToFillSignature n = "~" ∧
    (filterFillableNodes vammFillable m now n).fst ≠ FilterResult.throttled := by
  have hsig : getNodeToFillSignature n = "~" := by
    simp [getNodeToFillSignature, hua]
  refine ⟨hsig, ?_⟩
  unfold filterFillableNodes
  rw [hsig]
  by_cases h1 : n.node.isVammNode = true
  · simp [h1]
  by_cases h2 : n.node.haveFilled = true
  · simp [h1, h2]
  rw [if_neg h1, if_neg h2]
  cases hlook : lookupTM m "~" with
  | none =>
      by_cases hb : (n.makerNode.isNone && !vammFillable) = true <;> simp [hb]
  | some u =>
      have hu : u ≤ now := hts u hlook
      have hcond : ¬u + FILL_ORDER_BACKOFF > now := by
        simp only [FILL_ORDER_BACKOFF]
        omega
      by_cases hb : (n.makerNode.isNone && !vammFillable) = true <;>
        simp [hcond, hb]

/-- C6 witness: a concrete sentinel-signature node with a stale sentinel
entry in the registry is not rejected as throttled. -/
theorem sentinel_never_throttled_witness :
    getNodeToFillSignature ⟨⟨false, false, none, 7⟩, none⟩ = "~" ∧
    (filterFillableNodes true [("~", 5)] 5
      ⟨⟨false, false, none, 7⟩, none⟩).fst ≠ FilterResult.throttled :=
  sentinel_never_throttled true [("~", 5)] 5 ⟨⟨false, false, none, 7⟩, none⟩ rfl
    (fun u h => by
      rw [lookupTM, if_pos rfl] at h
      injection h with h
      omega)

/-! ### Packer lemmas -/

/-- Each accepted candidate leaves the running size strictly below the
budget; when nothing is accepted the running size is unchanged, and when
something is, the final size is strictly below the budget. -/
theorem tryBulkPackLoop_sizes :
    ∀ (cands : List PackCandidate) (accounts : List String) (size : Nat),
      (∀ s ∈ (tryBulkPackLoop cands accounts size).sizeTrace, s < maxTxSize) ∧
      ((tryBulkPackLoop cands accounts size).sent = [] →
        (tryBulkPackLoop cands accounts size).size = size) ∧
      ((tryBulkPackLoop cands accounts size).sent ≠ [] →
        (tryBulkPackLoop cands accounts size).size < maxTxSize)
  | [], accounts, size => by simp [tryBulkPackLoop]
  | c :: rest, accounts, size => by
      rw [tryBulkPackLoop]
      by_cases h : size + stepCost accounts c.ix ≥ maxTxSize
      · rw [if_pos h]
        simp
      · rw [if_neg h]
        have hlt : size + stepCost accounts c.ix < maxTxSize := by omega
        obtain ⟨ihTrace, ihEmpty, ihNonempty⟩ :=
          tryBulkPackLoop_sizes rest
            (insertAll accounts (newAccountsOf accounts c.ix))
            (size + stepCost accounts c.ix)
        refine ⟨?_, ?_, ?_⟩
        · intro s hs
          rcases List.mem_cons.mp hs with hs | hs
          · omega
          · exact ihTrace s hs
        · intro habs
          exact absurd habs (List.cons_ne_nil _ _)
        · intro _
          cases hsent : (tryBulkPackLoop rest
              (insertAll accounts (newAccountsOf accounts c.ix))
              (size + stepCost accounts c.ix)).sent with
          | nil => rw [ihEmpty hsent]; exact hlt
          | cons x xs =>
              exact ihNonempty (by rw [hsent]; exact List.cons_ne_nil _ _)

/-- The packing loop accepts exactly a prefix of the offered candidates,
and when it stopped early, the first unaccepted candidate fails the size
check against the final accumulated state. -/
theorem tryBulkPackLoop_prefix_shape :
    ∀ (cands : List PackCandidate) (accounts : List String) (size : Nat),
      (tryBulkPackLoop cands accounts size).sent =
        cands.take (tryBulkPackLoop cands accounts size).sent.length ∧
      ∀ hk : (tryBulkPackLoop cands accounts size).sent.length < cands.length,
        (tryBulkPackLoop cands accounts size).size +
          stepCost (tryBulkPackLoop cands accounts size).accounts
            (cands.get ⟨(tryBulkPackLoop cands accounts size).sent.length, hk⟩).ix
          ≥ maxTxSize
  | [], accounts, size => by simp [tryBulkPackLoop]
  | c :: rest, accounts, size => by
      rw [tryBulkPackLoop]
      by_cases h : size + stepCost accounts c.ix ≥ maxTxSize
      · rw [if_pos h]
        exact ⟨rfl, fun _ => h⟩
      · rw [if_neg h]
        obtain ⟨ihPrefix, ihStop⟩ :=
          tryBulkPackLoop_prefix_shape rest
            (insertAll accounts (newAccountsOf accounts c.ix))
            (size + stepCost accounts c.ix)
        refine ⟨?_, ?_⟩
        · simp only [List.length_cons, List.take_succ_cons]
          exact congrArg (c :: ·) ihPrefix
        · intro hk
          simp only [List.length_cons, List.get_cons_succ]
          exact ihStop _

/-- C1: in the batch packer, the running estimated transaction size is
strictly below the byte budget `maxTxSize` after every accepted candidate,
so a non-empty packed batch always has total estimated size within the
budget. -/
theorem tryBulkPack_within_budget (feePayer : String) (computeBudgetIx : Ix)
    (nodesToFill : List PackCandidate) :
    (∀ s ∈ (tryBulkPack feePayer computeBudgetIx nodesToFill).sizeTrace,
      s < maxTxSize) ∧
    ((tryBulkPack feePayer computeBudgetIx nodesToFill).sent ≠ [] →
      (tryBulkPack feePayer computeBudgetIx nodesToFill).size < maxTxSize) := by
  obtain ⟨h1, _, h3⟩ :=
    tryBulkPackLoop_sizes nodesToFill
      (bulkStartAccounts feePayer computeBudgetIx)
      (bulkStartSize feePayer computeBudgetIx)
  exact ⟨h1, h3⟩

/-- C3: the batch packer accepts exactly a prefix of the candidates in
input order; if it stopped before the end, the first rejected candidate
fails the size check `runningSize + ixCost + marginalAccountsCost ≥
maxTxSize` against the accumulated state, and no later candidate is
accepted — not even one that would fit. -/
theorem tryBulkPack_greedy_halt (feePayer : String) (computeBudgetIx : Ix)
    (nodesToFill : List PackCandidate) :
    (tryBulkPack feePayer computeBudgetIx nodesToFill).sent =
      nodesToFill.take
        (tryBulkPack feePayer computeBudgetIx nodesToFill).sent.length ∧
    ∀ hk : (tryBulkPack feePayer computeBudgetIx nodesToFill).sent.length <
        nodesToFill.length,
      (tryBulkPack feePayer computeBudgetIx nodesToFill).size +
        stepCost (tryBulkPack feePayer computeBudgetIx nodesToFill).accounts
          (nodesToFill.get
            ⟨(tryBulkPack feePayer computeBudgetIx nodesToFill).sent.length,
              hk⟩).ix ≥ maxTxSize :=
  tryBulkPackLoop_prefix_shape nodesToFill
    (bulkStartAccounts feePayer computeBudgetIx)
    (bulkStartSize feePayer computeBudgetIx)

/-- C4: for three packed candidates whose result log carries a fill
marker followed respectively by an "Order does not exist" line, an
"Amm cant fulfill order" line, and a 60-character opaque line,
reconciliation issues exactly one order-book removal (for the first
candidate), records exactly one throttle attempt (for the second
candidate's signature), and counts exactly one success, attributing each
outcome by packing index; and a fill marker followed by a short unmatched
line causes no state change. -/
theorem processBulkFillTxLogs_three_candidates :
    processBulkFillTxLogs
      [⟨⟨false, false, some "A", 1⟩, none⟩,
       ⟨⟨false, false, some "B", 2⟩, none⟩,
       ⟨⟨false, false, some "C", 3⟩, none⟩]
      777
      [some "Program log: Instruction: FillOrder",
       some "Program log: Order does not exist",
       some "Program log: Instruction: FillOrder",
       some "Program log: Amm cant fulfill order",
       some "Program log: Instruction: FillOrder",
       some "012345678901234567890123456789012345678901234567890123456789"]
      ⟨[], []⟩
      = (⟨[("B-2", 777)], [(1, some "A")]⟩, 1) ∧
    processBulkFillTxLogs [⟨⟨false, false, some "A", 1⟩, none⟩] 777
      [some "Program log: Instruction: FillOrder", some "???"] ⟨[], []⟩
      = (⟨[], []⟩, 0) := by
  constructor <;> rfl

end KeeperFiller
